import Mathlib

/-!
Node-in-cluster collector: a shallow embedding.

Embedding of `collector/cluster_nodes.go` and `collector/cluster_nodes_response.go`.

Conventions of the embedding

* A Go string is a byte sequence, `GoString`: a list of natural numbers, each byte a
  number below 256. The target token is such a byte sequence: it is handed to the
  constructor by the caller and need not be well-formed UTF-8. `strings.Contains`
  searches byte-wise.
* Text that is well-formed UTF-8 by construction is a Lean `String`, a sequence of
  Unicode code points: the literals of the source, and every string field of the
  decoded response (the JSON decoder replaces ill-formed input by U+FFFD, so what it
  stores is always well-formed). `GoString.ofString` gives the bytes of such text.
* The Prometheus counters and the gauge are records holding their descriptor and a
  natural-number value; the only float64 values the collector ever writes are the
  literals `0` and `1`, and counters only ever receive `Inc`. The 64-bit
  representation the library keeps behind a counter is not modelled.
* A Go map is an association list; `range` visits the entries in list order (the
  order is shown to be irrelevant for the value computed by `Collect`).
* The network, the body stream and the logger are the environment: one call of
  `client.Get` is given by a `GetOutcome`, the side effects of a cycle (samples sent
  on the channel, log records, calls of `Body.Close`, decode attempts) are returned
  as data.
* The package constant `namespace` is declared outside the two embedded files and is
  a parameter (`ns`) of the constructor.
* `path.Join` and the JSON decoder belong to the Go standard library and are fields
  of `Env`.
-/

/-! ## Library models -/

/-- A Go string: its bytes, each a number below 256. -/
abbrev GoString := List Nat

namespace utf8

/-- Go `utf8.AppendRune` on a valid code point: the UTF-8 encoding of `r`, one to
four bytes. -/
def encodeRune (r : Char) : List Nat :=
  let i := r.val.toNat
  if i < 0x80 then [i]
  else if i < 0x800 then [0xC0 + i / 64, 0x80 + i % 64]
  else if i < 0x10000 then [0xE0 + i / 4096, 0x80 + i / 64 % 64, 0x80 + i % 64]
  else [0xF0 + i / 262144, 0x80 + i / 4096 % 64, 0x80 + i / 64 % 64, 0x80 + i % 64]

/-- The UTF-8 encoding of a sequence of code points. -/
def encode : List Char → List Nat
  | [] => []
  | r :: rs => encodeRune r ++ encode rs

/-- The scan of `utf8.ValidString`. The first argument lists the ranges the next bytes
must fall into to complete the sequence that has been started; when it is empty the
next byte starts a sequence, and the ranges it opens are those of the library's
`first` and `acceptRanges` tables. -/
def validFrom : List (Nat × Nat) → List Nat → Bool
  | [], [] => true
  | _ :: _, [] => false
  | (lo, hi) :: pending, b :: rest => decide (lo ≤ b ∧ b ≤ hi) && validFrom pending rest
  | [], b :: rest =>
    if b < 0x80 then validFrom [] rest
    else if 0xC2 ≤ b ∧ b ≤ 0xDF then validFrom [(0x80, 0xBF)] rest
    else if b = 0xE0 then validFrom [(0xA0, 0xBF), (0x80, 0xBF)] rest
    else if b = 0xED then validFrom [(0x80, 0x9F), (0x80, 0xBF)] rest
    else if 0xE1 ≤ b ∧ b ≤ 0xEF then validFrom [(0x80, 0xBF), (0x80, 0xBF)] rest
    else if b = 0xF0 then validFrom [(0x90, 0xBF), (0x80, 0xBF), (0x80, 0xBF)] rest
    else if 0xF1 ≤ b ∧ b ≤ 0xF3 then validFrom [(0x80, 0xBF), (0x80, 0xBF), (0x80, 0xBF)] rest
    else if b = 0xF4 then validFrom [(0x80, 0x8F), (0x80, 0xBF), (0x80, 0xBF)] rest
    else false

/-- Go `utf8.ValidString(s)`: whether `s` consists entirely of valid UTF-8-encoded
runes. -/
def ValidString (s : GoString) : Bool :=
  validFrom [] s

/-- A continuation byte. -/
def isCont (b : Nat) : Prop := 0x80 ≤ b ∧ b ≤ 0xBF

end utf8

/-- The bytes of a text: its UTF-8 encoding. -/
def GoString.ofString (s : String) : GoString :=
  utf8.encode s.data

namespace strings

/-- Position of the first occurrence of `sub` in `l`, counted from `i`, or `-1`. -/
def indexFrom (sub : List Nat) : List Nat → Nat → Int
  | [], i => if sub.isPrefixOf [] then (i : Int) else -1
  | a :: t, i => if sub.isPrefixOf (a :: t) then (i : Int) else indexFrom sub t (i + 1)

/-- Go `strings.Index(s, substr)`: index of the first instance of `substr` in `s`,
or `-1` if `substr` is not present in `s`. -/
def Index (s substr : GoString) : Int :=
  indexFrom substr s 0

/-- Go `strings.Contains(s, substr)`, defined there as `Index(s, substr) >= 0`. -/
def Contains (s substr : GoString) : Bool :=
  decide (Index s substr ≥ 0)

/-- Go `strings.Join(elems, sep)`. -/
def Join (elems : List String) (sep : String) : String :=
  sep.intercalate elems

end strings

namespace prometheus

/-- The value types of `prometheus.ValueType`. -/
inductive ValueType where
  | CounterValue
  | GaugeValue
  | UntypedValue
  deriving DecidableEq, Repr

/-- The part of `prometheus.Desc` the collector determines: fully qualified name,
help text and variable label names. -/
structure Desc where
  fqName : String
  help : String
  variableLabels : List String
  deriving DecidableEq, Repr

/-- Library function `prometheus.BuildFQName`. -/
def BuildFQName (ns subsystem name : String) : String :=
  if name = "" then ""
  else if ns ≠ "" ∧ subsystem ≠ "" then strings.Join [ns, subsystem, name] "_"
  else if ns ≠ "" then strings.Join [ns, name] "_"
  else if subsystem ≠ "" then strings.Join [subsystem, name] "_"
  else name

/-- Library function `prometheus.NewDesc` with `constLabels = nil`. -/
def NewDesc (fqName help : String) (variableLabels : List String) : Desc :=
  { fqName := fqName, help := help, variableLabels := variableLabels }

/-- A `prometheus.Gauge`: descriptor and current value. -/
structure Gauge where
  desc : Desc
  value : Nat
  deriving DecidableEq, Repr

/-- A `prometheus.Counter`: descriptor and current value. -/
structure Counter where
  desc : Desc
  value : Nat
  deriving DecidableEq, Repr

/-- Library function `prometheus.NewGauge(GaugeOpts{Name, Help})`; a new gauge reads 0. -/
def NewGauge (name help : String) : Gauge :=
  { desc := NewDesc name help [], value := 0 }

/-- Library function `prometheus.NewCounter(CounterOpts{Name, Help})`; a new counter reads 0. -/
def NewCounter (name help : String) : Counter :=
  { desc := NewDesc name help [], value := 0 }

/-- Method `Gauge.Set`. -/
def Gauge.Set (g : Gauge) (v : Nat) : Gauge :=
  { g with value := v }

/-- Method `Counter.Inc`. -/
def Counter.Inc (k : Counter) : Counter :=
  { k with value := k.value + 1 }

/-- A sample as the registry receives it on the channel. -/
structure Metric where
  desc : Desc
  valueType : ValueType
  value : Nat
  labelValues : List GoString
  deriving DecidableEq, Repr

/-- The sample a gauge yields when it is sent on the channel. -/
def Gauge.toMetric (g : Gauge) : Metric :=
  { desc := g.desc, valueType := ValueType.GaugeValue, value := g.value, labelValues := [] }

/-- The sample a counter yields when it is sent on the channel. -/
def Counter.toMetric (k : Counter) : Metric :=
  { desc := k.desc, valueType := ValueType.CounterValue, value := k.value, labelValues := [] }

/-- Library function `prometheus.MustNewConstMetric`: it panics when
`NewConstMetric` returns an error, that is when the number of label values differs
from the number of variable labels of the descriptor, or when a label value is not
valid UTF-8 (`validateLabelValues`). The third cause of an error, a descriptor that
`NewDesc` has marked invalid, is not modelled: the label names and help text of the
descriptor are literals of the constructor that pass the library's checks, and the
metric name depends only on the namespace constant, which is declared outside the
embedded files. -/
def MustNewConstMetric (desc : Desc) (valueType : ValueType) (value : Nat)
    (labelValues : List GoString) : Except String Metric :=
  if labelValues.length ≠ desc.variableLabels.length then
    Except.error "inconsistent label cardinality"
  else if labelValues.all utf8.ValidString = true then
    Except.ok { desc := desc, valueType := valueType, value := value, labelValues := labelValues }
  else
    Except.error "label value is not valid UTF-8"

end prometheus

/-! ## The response model (`cluster_nodes_response.go`) -/

namespace collector

open prometheus

structure ClusterNodesResponseAttributes where
  MlMaxOpenJobs : String
  RackID : String
  MlEnabled : String
  deriving DecidableEq, Repr

structure ClusterNodesResponseNode where
  Name : String
  EphemeralID : String
  TransportAddress : String
  Attributes : ClusterNodesResponseAttributes
  deriving DecidableEq, Repr

structure clusterNodesResponse where
  ClusterName : String
  Nodes : List (String × ClusterNodesResponseNode)
  deriving DecidableEq, Repr

/-- The Go zero value of `clusterNodesResponse` (`var chr clusterNodesResponse`). -/
def clusterNodesResponse.zero : clusterNodesResponse :=
  { ClusterName := "", Nodes := [] }

/-! ## The environment -/

/-- The fields of `url.URL` the collector reads. -/
structure URL where
  Scheme : String
  Hostname : String
  Port : String
  Path : String
  deriving DecidableEq, Repr

/-- Go `error` values met by the collector: the two errors it formats itself, kept
with their format arguments, and errors handed over by a library. -/
inductive GoError where
  /-- Value of `fmt.Errorf("failed to get nodes from cluster from %s://%s:%s%s: %s", ...)`. -/
  | getFailed (scheme hostname port path cause : String)
  /-- Value of `fmt.Errorf("HTTP Request failed with code %d", code)`. -/
  | httpStatus (code : Int)
  /-- An error returned by the HTTP client, the body stream or the JSON decoder. -/
  | lib (msg : String)
  deriving DecidableEq, Repr

/-- A response body: its bytes and what `Close` will return. -/
structure Body where
  data : String
  closeErr : Option String
  deriving DecidableEq, Repr

/-- The fields of `http.Response` the collector reads. -/
structure Response where
  StatusCode : Int
  Body : Body
  deriving DecidableEq, Repr

/-- What one call of `client.Get` returns: an error, or a response. -/
inductive GetOutcome where
  | err (e : String)
  | ok (res : Response)
  deriving DecidableEq, Repr

/-- Standard-library functions used by the collector. `jsonDecode body` is the effect
of `json.NewDecoder(body).Decode(&chr)` on a zero `chr`: the value left in `chr` and
the returned error. -/
structure Env where
  pathJoin : String → String → String
  jsonDecode : String → clusterNodesResponse × Option String

/-- One warning written through `level.Warn(c.logger).Log("msg", msg, "err", err)`. -/
structure LogRecord where
  msg : String
  err : GoError
  deriving DecidableEq, Repr

/-- Constant `http.StatusOK`. -/
def StatusOK : Int := 200

/-! ## The collector (`cluster_nodes.go`) -/

structure nodesInClusterCollector where
  url : URL
  node : GoString
  up : Gauge
  totalScrapes : Counter
  jsonParseFailures : Counter
  nodesexists : Desc
  deriving DecidableEq, Repr

def NewNodeInCluster (ns : String) (url : URL) (node : GoString) : nodesInClusterCollector :=
  let subname := "node_in_cluster"
  { url := url
    node := node
    up := NewGauge (BuildFQName ns subname "up")
      "Was the last scrape of the Elasticsearch cluster node endpoint successful."
    totalScrapes := NewCounter (BuildFQName ns subname "total_scrapes")
      "Current total ElasticSearch cluster node scrapes."
    jsonParseFailures := NewCounter (BuildFQName ns subname "json_parse_failures")
      "Number of errors while parsing JSON."
    nodesexists := NewDesc (BuildFQName ns subname "nodesexists")
      "Show if node exists in cluster. 1 it exists. 0 if it is not in the cluster."
      ["cluster", "name"] }

def Describe (c : nodesInClusterCollector) : List Desc :=
  [c.up.desc, c.totalScrapes.desc, c.jsonParseFailures.desc, c.nodesexists]

/-- Outcome of `fetchAndDecodeClusterNodes`: the returned pair, the collector after
the call, and the effects of the call. -/
structure FetchResult where
  chr : clusterNodesResponse
  err : Option GoError
  collector : nodesInClusterCollector
  log : List LogRecord
  closeCalls : Nat
  decodeAttempts : Nat
  deriving DecidableEq, Repr

/-- The deferred function of `fetchAndDecodeClusterNodes`: one call of
`res.Body.Close()`, and a warning when that call fails. The error is stored in a
local variable only; the function has unnamed results, so the returned pair has
already been fixed when the deferred function runs. -/
def closeBody (b : Body) : List LogRecord :=
  match b.closeErr with
  | some e => [{ msg := "failed to close http.Client", err := GoError.lib e }]
  | none => []

def fetchAndDecodeClusterNodes (env : Env) (c : nodesInClusterCollector)
    (get : GetOutcome) : FetchResult :=
  let chr := clusterNodesResponse.zero
  let uPath := env.pathJoin c.url.Path "/_cluster/state/nodes"
  match get with
  | GetOutcome.err e =>
    { chr := chr
      err := some (GoError.getFailed c.url.Scheme c.url.Hostname c.url.Port uPath e)
      collector := c, log := [], closeCalls := 0, decodeAttempts := 0 }
  | GetOutcome.ok res =>
    if res.StatusCode ≠ StatusOK then
      { chr := chr
        err := some (GoError.httpStatus res.StatusCode)
        collector := c, log := closeBody res.Body, closeCalls := 1, decodeAttempts := 0 }
    else
      match env.jsonDecode res.Body.data with
      | (chr1, some e) =>
        { chr := chr1
          err := some (GoError.lib e)
          collector := { c with jsonParseFailures := c.jsonParseFailures.Inc }
          log := closeBody res.Body, closeCalls := 1, decodeAttempts := 1 }
      | (chr1, none) =>
        { chr := chr1
          err := none
          collector := c, log := closeBody res.Body, closeCalls := 1, decodeAttempts := 1 }

/-- The loop of `Collect` over the decoded nodes: `metricValue` starts at 0 and is
set to 1 at every node whose name contains the configured token. -/
def metricValue (node : GoString) (nodes : List ClusterNodesResponseNode) : Nat :=
  nodes.foldl (fun mv n => if strings.Contains (GoString.ofString n.Name) node then 1 else mv) 0

/-- The deferred function of `Collect`: the three samples sent at exit. -/
def bookkeeping (c : nodesInClusterCollector) : List Metric :=
  [c.up.toMetric, c.totalScrapes.toMetric, c.jsonParseFailures.toMetric]

/-- Outcome of one `Collect`: the collector afterwards, the samples sent on the
channel in order, the effects of the cycle, and the panic value if the call
panicked. -/
structure CollectResult where
  collector : nodesInClusterCollector
  ch : List Metric
  log : List LogRecord
  closeCalls : Nat
  decodeAttempts : Nat
  panic : Option String
  deriving DecidableEq, Repr

def Collect (env : Env) (c : nodesInClusterCollector) (get : GetOutcome) : CollectResult :=
  let c1 := { c with totalScrapes := c.totalScrapes.Inc }
  let f := fetchAndDecodeClusterNodes env c1 get
  match f.err with
  | some err =>
    let c2 := { f.collector with up := f.collector.up.Set 0 }
    { collector := c2
      ch := bookkeeping c2
      log := f.log ++ [{ msg := "failed to fetch and decode node in cluster status", err := err }]
      closeCalls := f.closeCalls, decodeAttempts := f.decodeAttempts, panic := none }
  | none =>
    let c2 := { f.collector with up := f.collector.up.Set 1 }
    let mv := metricValue c2.node (f.chr.Nodes.map Prod.snd)
    match MustNewConstMetric c2.nodesexists ValueType.CounterValue mv
        [GoString.ofString f.chr.ClusterName, c2.node] with
    | Except.ok m =>
      { collector := c2, ch := m :: bookkeeping c2, log := f.log
        closeCalls := f.closeCalls, decodeAttempts := f.decodeAttempts, panic := none }
    | Except.error p =>
      { collector := c2, ch := bookkeeping c2, log := f.log
        closeCalls := f.closeCalls, decodeAttempts := f.decodeAttempts, panic := some p }

/-- A sequence of `Collect` invocations, one per outcome of `client.Get`; a panic
ends the sequence. -/
def collectAll (env : Env) : nodesInClusterCollector → List GetOutcome →
    Option nodesInClusterCollector
  | c, [] => some c
  | c, g :: gs =>
    match (Collect env c g).panic with
    | none => collectAll env (Collect env c g).collector gs
    | some _ => none

end collector

/-! ## Specification-side definitions -/

namespace collector

/-- The membership value as the specification words it: a scan that stops at the
first record whose name contains the token. -/
def metricValueShortCircuit (node : GoString) : List ClusterNodesResponseNode → Nat
  | [] => 0
  | n :: rest =>
    if strings.Contains (GoString.ofString n.Name) node then 1
    else metricValueShortCircuit node rest

/-- A cycle that reaches a decode attempt and fails to decode: a response was
obtained, it passed the status check, and decoding its body returned an error. -/
def decodeFailure (env : Env) : GetOutcome → Bool
  | GetOutcome.err _ => false
  | GetOutcome.ok res =>
    decide (res.StatusCode = StatusOK) && (env.jsonDecode res.Body.data).2.isSome

/-- A cycle that reaches the decoded state: a response was obtained, it passed the
status check, and its body decoded without error. -/
def decoded (env : Env) : GetOutcome → Bool
  | GetOutcome.err _ => false
  | GetOutcome.ok res =>
    decide (res.StatusCode = StatusOK) && (env.jsonDecode res.Body.data).2.isNone

end collector

/-! ## Concrete inputs used in the examples -/

namespace collector

def exampleURL : URL :=
  { Scheme := "http", Hostname := "localhost", Port := "9200", Path := "" }

/-- A node record of which only the name is set. -/
def namedNode (name : String) : ClusterNodesResponseNode :=
  { Name := name, EphemeralID := "", TransportAddress := ""
    Attributes := { MlMaxOpenJobs := "", RackID := "", MlEnabled := "" } }

/-- The payload of the scenario `HTTP 200`, cluster `es1`, one node `es1-node-2`. -/
def bodyEs1 : String :=
  "\x7b\"cluster_name\":\"es1\",\"nodes\":\x7b\"a\":\x7b\"name\":\"es1-node-2\"\x7d\x7d\x7d"

def chrEs1 : clusterNodesResponse :=
  { ClusterName := "es1", Nodes := [("a", namedNode "es1-node-2")] }

/-- A payload with the nodes `node-1` and `node-3-replica`. -/
def bodyReplica : String :=
  "\x7b\"cluster_name\":\"es1\",\"nodes\":\x7b\"a\":\x7b\"name\":\"node-1\"\x7d,\"b\":\x7b\"name\":\"node-3-replica\"\x7d\x7d\x7d"

def chrReplica : clusterNodesResponse :=
  { ClusterName := "es1", Nodes := [("a", namedNode "node-1"), ("b", namedNode "node-3-replica")] }

/-- A payload with the nodes `node-1` and `node-2`. -/
def bodyTwo : String :=
  "\x7b\"cluster_name\":\"es1\",\"nodes\":\x7b\"a\":\x7b\"name\":\"node-1\"\x7d,\"b\":\x7b\"name\":\"node-2\"\x7d\x7d\x7d"

def chrTwo : clusterNodesResponse :=
  { ClusterName := "es1", Nodes := [("a", namedNode "node-1"), ("b", namedNode "node-2")] }

/-- A payload with an empty node map. -/
def bodyEmpty : String :=
  "\x7b\"cluster_name\":\"es1\",\"nodes\":\x7b\x7d\x7d"

def chrEmpty : clusterNodesResponse :=
  { ClusterName := "es1", Nodes := [] }

/-- An environment that agrees with the Go library on the inputs of the examples:
the four payloads above decode to the four responses above, any other body is
rejected by the decoder, and joining the empty base path with the endpoint path
gives the endpoint path. -/
def exampleEnv : Env :=
  { pathJoin := fun a b => if a = "" then b else a ++ b
    jsonDecode := fun body =>
      if body = bodyEs1 then (chrEs1, none)
      else if body = bodyReplica then (chrReplica, none)
      else if body = bodyTwo then (chrTwo, none)
      else if body = bodyEmpty then (chrEmpty, none)
      else (clusterNodesResponse.zero, some "invalid character") }

/-- A response with the given status and body whose `Close` succeeds. -/
def respond (status : Int) (data : String) : Response :=
  { StatusCode := status, Body := { data := data, closeErr := none } }

end collector

/-! ## Lemmas on the library models -/

namespace utf8

theorem char_range (r : Char) :
    r.val.toNat < 0xD800 ∨ (0xDFFF < r.val.toNat ∧ r.val.toNat < 0x110000) := r.valid

theorem validFrom_cont (lo hi b : Nat) (pending : List (Nat × Nat)) (rest : List Nat)
    (h1 : lo ≤ b) (h2 : b ≤ hi) :
    validFrom ((lo, hi) :: pending) (b :: rest) = validFrom pending rest := by
  simp [validFrom, h1, h2]

theorem validFrom_encodeRune (r : Char) (rest : List Nat) :
    validFrom [] (encodeRune r ++ rest) = validFrom [] rest := by
  have hr := char_range r
  unfold encodeRune
  simp only []
  generalize r.val.toNat = i at hr ⊢
  by_cases h1 : i < 0x80
  · simp [validFrom, h1]
  rw [if_neg h1]
  by_cases h2 : i < 0x800
  · rw [if_pos h2]
    have a1 : 0xC2 ≤ 0xC0 + i / 64 ∧ 0xC0 + i / 64 ≤ 0xDF := by omega
    have a2 : ¬ (0xC0 + i / 64 < 0x80) := by omega
    have a3 : 0x80 ≤ 0x80 + i % 64 ∧ 0x80 + i % 64 ≤ 0xBF := by omega
    simp [validFrom, a1, a2, a3]
  rw [if_neg h2]
  by_cases h3 : i < 0x10000
  · rw [if_pos h3]
    have a0 : ¬ (0xE0 + i / 4096 < 0x80) := by omega
    have a1 : ¬ (0xC2 ≤ 0xE0 + i / 4096 ∧ 0xE0 + i / 4096 ≤ 0xDF) := by omega
    have c3 : 0x80 ≤ 0x80 + i % 64 ∧ 0x80 + i % 64 ≤ 0xBF := by omega
    have c2 : 0x80 ≤ 0x80 + i / 64 % 64 ∧ 0x80 + i / 64 % 64 ≤ 0xBF := by omega
    by_cases e0 : 0xE0 + i / 4096 = 0xE0
    · have c2' : 0xA0 ≤ 0x80 + i / 64 % 64 := by omega
      simp [validFrom, a0, a1, e0, c2, c3, c2']
    by_cases ed : 0xE0 + i / 4096 = 0xED
    · have c2' : 0x80 + i / 64 % 64 ≤ 0x9F := by omega
      simp [validFrom, a0, a1, e0, ed, c2, c3, c2']
    have ee : 0xE1 ≤ 0xE0 + i / 4096 ∧ 0xE0 + i / 4096 ≤ 0xEF := by omega
    simp [validFrom, a0, a1, e0, ed, ee, c2, c3]
  rw [if_neg h3]
  have a0 : ¬ (0xF0 + i / 262144 < 0x80) := by omega
  have a1 : ¬ (0xC2 ≤ 0xF0 + i / 262144 ∧ 0xF0 + i / 262144 ≤ 0xDF) := by omega
  have a2 : ¬ (0xF0 + i / 262144 = 0xE0) := by omega
  have a3 : ¬ (0xF0 + i / 262144 = 0xED) := by omega
  have a4 : ¬ (0xE1 ≤ 0xF0 + i / 262144 ∧ 0xF0 + i / 262144 ≤ 0xEF) := by omega
  have c4 : 0x80 ≤ 0x80 + i % 64 ∧ 0x80 + i % 64 ≤ 0xBF := by omega
  have c3 : 0x80 ≤ 0x80 + i / 64 % 64 ∧ 0x80 + i / 64 % 64 ≤ 0xBF := by omega
  have c2 : 0x80 ≤ 0x80 + i / 4096 % 64 ∧ 0x80 + i / 4096 % 64 ≤ 0xBF := by omega
  by_cases f0 : 0xF0 + i / 262144 = 0xF0
  · have c2' : 0x90 ≤ 0x80 + i / 4096 % 64 := by omega
    simp [validFrom, a0, a1, a2, a3, a4, f0, c2, c3, c4, c2']
  by_cases f4 : 0xF0 + i / 262144 = 0xF4
  · have c2' : 0x80 + i / 4096 % 64 ≤ 0x8F := by omega
    simp [validFrom, a0, a1, a2, a3, a4, f0, f4, c2, c3, c4, c2']
  have f1 : 0xF1 ≤ 0xF0 + i / 262144 ∧ 0xF0 + i / 262144 ≤ 0xF3 := by omega
  simp [validFrom, a0, a1, a2, a3, a4, f0, f4, f1, c2, c3, c4]

theorem ValidString_encode (rs : List Char) : ValidString (encode rs) = true := by
  induction rs with
  | nil => rfl
  | cons r rs ih =>
    unfold ValidString at ih ⊢
    rw [encode, validFrom_encodeRune]
    exact ih

theorem encodeRune_shape (r : Char) :
    ∃ b conts, encodeRune r = b :: conts ∧ ¬ isCont b ∧ ∀ x ∈ conts, isCont x := by
  have hr := char_range r
  unfold encodeRune isCont
  simp only []
  generalize r.val.toNat = i at hr ⊢
  by_cases h1 : i < 0x80
  · rw [if_pos h1]
    exact ⟨_, _, rfl, by omega, by simp⟩
  rw [if_neg h1]
  by_cases h2 : i < 0x800
  · rw [if_pos h2]
    refine ⟨_, _, rfl, by omega, ?_⟩
    intro x hx
    simp only [List.mem_cons, List.mem_singleton, List.not_mem_nil, or_false] at hx
    omega
  rw [if_neg h2]
  by_cases h3 : i < 0x10000
  · rw [if_pos h3]
    refine ⟨_, _, rfl, by omega, ?_⟩
    intro x hx
    simp only [List.mem_cons, List.mem_singleton, List.not_mem_nil, or_false] at hx
    omega
  rw [if_neg h3]
  refine ⟨_, _, rfl, by omega, ?_⟩
  intro x hx
  simp only [List.mem_cons, List.mem_singleton, List.not_mem_nil, or_false] at hx
  omega

theorem char_eq_of_toNat_eq (a b : Char) (h : a.val.toNat = b.val.toNat) : a = b := by
  apply Char.eq_of_val_eq
  apply UInt32.eq_of_val_eq
  exact Fin.eq_of_val_eq h

/-- The encoding is a prefix code. -/
theorem encodeRune_append_inj (a b : Char) (x y : List Nat)
    (h : encodeRune a ++ x = encodeRune b ++ y) : a = b ∧ x = y := by
  have ha := char_range a
  have hb := char_range b
  have key : a.val.toNat = b.val.toNat := by
    unfold encodeRune at h
    simp only [] at h
    generalize a.val.toNat = i at ha h ⊢
    generalize b.val.toNat = j at hb h ⊢
    split at h <;> split at h <;> (try split at h) <;> (try split at h) <;> (try split at h)
      <;> (try split at h)
      <;> simp only [List.cons_append, List.nil_append, List.cons.injEq] at h
      <;> omega
  have hab := char_eq_of_toNat_eq a b key
  subst hab
  exact ⟨rfl, List.append_cancel_left h⟩

theorem encode_append (l₁ l₂ : List Char) : encode (l₁ ++ l₂) = encode l₁ ++ encode l₂ := by
  induction l₁ with
  | nil => rfl
  | cons r rs ih => simp [encode, ih]

theorem encode_prefix_reflect :
    ∀ (sub s : List Char), encode sub <+: encode s → sub <+: s := by
  intro sub
  induction sub with
  | nil => intro s _; exact List.nil_prefix
  | cons a sub ih =>
    intro s h
    obtain ⟨t, ht⟩ := h
    cases s with
    | nil =>
      obtain ⟨b, conts, hb, _, _⟩ := encodeRune_shape a
      simp [encode, hb] at ht
    | cons c s =>
      simp only [encode, List.append_assoc] at ht
      obtain ⟨rfl, hrest⟩ := encodeRune_append_inj a c _ _ ht
      have := ih s ⟨t, hrest⟩
      exact (List.cons_prefix_cons).mpr ⟨rfl, this⟩

/-- A pattern that does not start with a continuation byte cannot start inside a
run of continuation bytes. -/
theorem infix_skip_conts (p : List Nat) (hp : ∀ b ∈ p.head?, ¬ isCont b) :
    ∀ (conts rest : List Nat), (∀ x ∈ conts, isCont x) → p <:+: conts ++ rest → p <:+: rest := by
  intro conts
  induction conts with
  | nil => intro rest _ h; exact h
  | cons x xs ih =>
    intro rest hx h
    rw [List.cons_append, List.infix_cons_iff] at h
    rcases h with h | h
    · cases p with
      | nil => exact List.nil_infix
      | cons b p =>
        have hbx : b = x := (List.cons_prefix_cons.mp h).1
        exact absurd (hbx ▸ hx x (List.mem_cons_self _ _)) (hp b rfl)
    · exact ih rest (fun y hy => hx y (List.mem_cons_of_mem _ hy)) h

theorem encode_head_not_cont (sub : List Char) : ∀ b ∈ (encode sub).head?, ¬ isCont b := by
  cases sub with
  | nil => intro b hb; simp [encode] at hb
  | cons a sub =>
    obtain ⟨b0, conts, hb0, hnc, _⟩ := encodeRune_shape a
    intro b hb
    simp only [encode, hb0, List.cons_append, List.head?_cons, Option.mem_def,
      Option.some.injEq] at hb
    rw [← hb]
    exact hnc

/-- UTF-8 is self-synchronising: a byte-wise occurrence of encoded text in encoded
text is an occurrence of the code-point sequence, and conversely. -/
theorem encode_infix_iff (sub : List Char) :
    ∀ s : List Char, encode sub <:+: encode s ↔ sub <:+: s := by
  intro s
  constructor
  · induction s with
    | nil =>
      intro h
      have hnil : encode sub = [] := List.eq_nil_of_infix_nil h
      cases sub with
      | nil => exact List.infix_refl _
      | cons a sub =>
        obtain ⟨b, conts, hb, _, _⟩ := encodeRune_shape a
        simp [encode, hb] at hnil
    | cons c s ih =>
      intro h
      obtain ⟨b, conts, hb, _, hconts⟩ := encodeRune_shape c
      have h' := h
      rw [encode, hb, List.cons_append, List.infix_cons_iff] at h'
      rcases h' with hpre | hin
      · have hpre' : encode sub <+: encode (c :: s) := by
          rw [encode, hb, List.cons_append]; exact hpre
        exact (encode_prefix_reflect sub (c :: s) hpre').isInfix
      · have := infix_skip_conts (encode sub) (encode_head_not_cont sub) conts (encode s)
          hconts hin
        exact List.infix_cons (ih this)
  · rintro ⟨l₁, l₂, rfl⟩
    rw [encode_append, encode_append]
    exact ⟨encode l₁, encode l₂, rfl⟩

end utf8

theorem GoString.ofString_valid (s : String) : utf8.ValidString (GoString.ofString s) = true :=
  utf8.ValidString_encode s.data

namespace strings

theorem indexFrom_nonneg (sub : List Nat) :
    ∀ (l : List Nat) (i : Nat), 0 ≤ indexFrom sub l i ↔ sub <:+: l := by
  intro l
  induction l with
  | nil =>
    intro i
    cases sub with
    | nil => simp [indexFrom]
    | cons a t => simp [indexFrom, List.isPrefixOf]
  | cons a t ih =>
    intro i
    unfold indexFrom
    by_cases hp : sub.isPrefixOf (a :: t) = true
    · rw [if_pos hp]
      have hpre : sub <+: a :: t := List.isPrefixOf_iff_prefix.mp hp
      exact ⟨fun _ => hpre.isInfix, fun _ => Int.ofNat_nonneg i⟩
    · rw [if_neg hp, ih (i + 1), List.infix_cons_iff]
      have hnp : ¬ sub <+: a :: t := fun h => hp ( List.isPrefixOf_iff_prefix.mpr h)
      exact ⟨Or.inr, fun h => h.resolve_left hnp⟩

/-- `strings.Contains s substr` holds exactly when the bytes of `substr` occur in `s`
as a contiguous block. -/
theorem Contains_iff (s substr : GoString) :
    Contains s substr = true ↔ substr <:+: s := by
  unfold Contains Index
  rw [decide_eq_true_iff]
  exact indexFrom_nonneg substr s 0

/-- On text, `strings.Contains` holds exactly when the code points of `substr` occur
in `s` as a contiguous block. -/
theorem Contains_text_iff (s substr : String) :
    Contains (GoString.ofString s) (GoString.ofString substr) = true
      ↔ substr.data <:+: s.data := by
  rw [Contains_iff]
  exact utf8.encode_infix_iff substr.data s.data

end strings

namespace collector

open prometheus

theorem foldl_metricValue (node : GoString) :
    ∀ (nodes : List ClusterNodesResponseNode) (init : Nat),
      nodes.foldl
          (fun mv n => if strings.Contains (GoString.ofString n.Name) node then 1 else mv) init
        = if nodes.any (fun n => strings.Contains (GoString.ofString n.Name) node) = true
          then 1 else init := by
  intro nodes
  induction nodes with
  | nil => intro init; simp
  | cons n rest ih =>
    intro init
    rw [List.foldl_cons, ih]
    by_cases hn : strings.Contains (GoString.ofString n.Name) node = true
    · simp [hn]
    · simp [hn]

theorem metricValue_eq_any (node : GoString) (nodes : List ClusterNodesResponseNode) :
    metricValue node nodes
      = if nodes.any (fun n => strings.Contains (GoString.ofString n.Name) node) = true
        then 1 else 0 :=
  foldl_metricValue node nodes 0

theorem metricValueShortCircuit_eq_any (node : GoString) :
    ∀ nodes : List ClusterNodesResponseNode,
      metricValueShortCircuit node nodes
        = if nodes.any (fun n => strings.Contains (GoString.ofString n.Name) node) = true
          then 1 else 0 := by
  intro nodes
  induction nodes with
  | nil => simp [metricValueShortCircuit]
  | cons n rest ih =>
    unfold metricValueShortCircuit
    by_cases hn : strings.Contains (GoString.ofString n.Name) node = true
    · simp [hn]
    · simp [hn, ih]

theorem any_perm (node : GoString) {l₁ l₂ : List ClusterNodesResponseNode} (h : l₁.Perm l₂) :
    l₁.any (fun n => strings.Contains (GoString.ofString n.Name) node)
      = l₂.any (fun n => strings.Contains (GoString.ofString n.Name) node) := by
  rw [Bool.eq_iff_iff, List.any_eq_true, List.any_eq_true]
  exact ⟨fun ⟨x, hx, hc⟩ => ⟨x, h.mem_iff.mp hx, hc⟩, fun ⟨x, hx, hc⟩ => ⟨x, h.mem_iff.mpr hx, hc⟩⟩

/-- The value of the scan for an arbitrary token, in terms of bytes. -/
theorem metricValue_bytes_one_iff (node : GoString) (nodes : List ClusterNodesResponseNode) :
    metricValue node nodes = 1 ↔ ∃ n ∈ nodes, node <:+: GoString.ofString n.Name := by
  rw [metricValue_eq_any]
  by_cases h : nodes.any (fun n => strings.Contains (GoString.ofString n.Name) node) = true
  · rw [if_pos h]
    rw [List.any_eq_true] at h
    obtain ⟨n, hn, hc⟩ := h
    exact ⟨fun _ => ⟨n, hn, (strings.Contains_iff _ _).mp hc⟩, fun _ => rfl⟩
  · rw [if_neg h]
    constructor
    · intro h0; exact absurd h0 (by decide)
    · rintro ⟨n, hn, hc⟩
      exact absurd (List.any_eq_true.mpr ⟨n, hn, (strings.Contains_iff _ _).mpr hc⟩) h

theorem metricValue_bytes_zero_iff (node : GoString) (nodes : List ClusterNodesResponseNode) :
    metricValue node nodes = 0 ↔ ¬ ∃ n ∈ nodes, node <:+: GoString.ofString n.Name := by
  rw [← metricValue_bytes_one_iff, metricValue_eq_any]
  by_cases h : nodes.any (fun n => strings.Contains (GoString.ofString n.Name) node) = true
  · simp [h]
  · simp [h]

theorem metricValue_one_iff (node : String) (nodes : List ClusterNodesResponseNode) :
    metricValue (GoString.ofString node) nodes = 1
      ↔ ∃ n ∈ nodes, node.data <:+: n.Name.data := by
  rw [metricValue_bytes_one_iff]
  constructor
  · rintro ⟨n, hn, hc⟩
    exact ⟨n, hn, (utf8.encode_infix_iff _ _).mp hc⟩
  · rintro ⟨n, hn, hc⟩
    exact ⟨n, hn, (utf8.encode_infix_iff _ _).mpr hc⟩

theorem metricValue_zero_iff (node : String) (nodes : List ClusterNodesResponseNode) :
    metricValue (GoString.ofString node) nodes = 0
      ↔ ¬ ∃ n ∈ nodes, node.data <:+: n.Name.data := by
  rw [← metricValue_one_iff, metricValue_eq_any]
  by_cases h : nodes.any
      (fun n => strings.Contains (GoString.ofString n.Name) (GoString.ofString node)) = true
  · simp [h]
  · simp [h]

end collector

/-! ## Lemmas on the collector -/

namespace collector

open prometheus

theorem fetch_err (env : Env) (c : nodesInClusterCollector) (e : String) :
    fetchAndDecodeClusterNodes env c (GetOutcome.err e)
      = { chr := clusterNodesResponse.zero
          err := some (GoError.getFailed c.url.Scheme c.url.Hostname c.url.Port
            (env.pathJoin c.url.Path "/_cluster/state/nodes") e)
          collector := c, log := [], closeCalls := 0, decodeAttempts := 0 } := rfl

theorem fetch_status (env : Env) (c : nodesInClusterCollector) (res : Response)
    (h : res.StatusCode ≠ StatusOK) :
    fetchAndDecodeClusterNodes env c (GetOutcome.ok res)
      = { chr := clusterNodesResponse.zero
          err := some (GoError.httpStatus res.StatusCode)
          collector := c, log := closeBody res.Body, closeCalls := 1, decodeAttempts := 0 } := by
  simp [fetchAndDecodeClusterNodes, h]

theorem fetch_decode_err (env : Env) (c : nodesInClusterCollector) (res : Response)
    (chr : clusterNodesResponse) (e : String)
    (h : res.StatusCode = StatusOK) (hd : env.jsonDecode res.Body.data = (chr, some e)) :
    fetchAndDecodeClusterNodes env c (GetOutcome.ok res)
      = { chr := chr
          err := some (GoError.lib e)
          collector := { c with jsonParseFailures := c.jsonParseFailures.Inc }
          log := closeBody res.Body, closeCalls := 1, decodeAttempts := 1 } := by
  simp [fetchAndDecodeClusterNodes, h, hd]

theorem fetch_decode_ok (env : Env) (c : nodesInClusterCollector) (res : Response)
    (chr : clusterNodesResponse)
    (h : res.StatusCode = StatusOK) (hd : env.jsonDecode res.Body.data = (chr, none)) :
    fetchAndDecodeClusterNodes env c (GetOutcome.ok res)
      = { chr := chr
          err := none
          collector := c, log := closeBody res.Body, closeCalls := 1, decodeAttempts := 1 } := by
  simp [fetchAndDecodeClusterNodes, h, hd]

/-- The three ways a cycle can go wrong, and the one way it goes right. -/
theorem outcome_cases (env : Env) (g : GetOutcome) :
    (∃ e, g = GetOutcome.err e)
    ∨ (∃ res, g = GetOutcome.ok res ∧ res.StatusCode ≠ StatusOK)
    ∨ (∃ res chr e, g = GetOutcome.ok res ∧ res.StatusCode = StatusOK
        ∧ env.jsonDecode res.Body.data = (chr, some e))
    ∨ (∃ res chr, g = GetOutcome.ok res ∧ res.StatusCode = StatusOK
        ∧ env.jsonDecode res.Body.data = (chr, none)) := by
  cases g with
  | err e => exact Or.inl ⟨e, rfl⟩
  | ok res =>
    by_cases h : res.StatusCode = StatusOK
    · rcases hd : env.jsonDecode res.Body.data with ⟨chr, _ | e⟩
      · exact Or.inr (Or.inr (Or.inr ⟨res, chr, rfl, h, hd⟩))
      · exact Or.inr (Or.inr (Or.inl ⟨res, chr, e, rfl, h, hd⟩))
    · exact Or.inr (Or.inl ⟨res, rfl, h⟩)

theorem Collect_err (env : Env) (c : nodesInClusterCollector) (e : String) :
    Collect env c (GetOutcome.err e)
      = { collector := { c with totalScrapes := c.totalScrapes.Inc, up := c.up.Set 0 }
          ch := bookkeeping { c with totalScrapes := c.totalScrapes.Inc, up := c.up.Set 0 }
          log := [{ msg := "failed to fetch and decode node in cluster status"
                    err := GoError.getFailed c.url.Scheme c.url.Hostname c.url.Port
                      (env.pathJoin c.url.Path "/_cluster/state/nodes") e }]
          closeCalls := 0, decodeAttempts := 0, panic := none } := rfl

theorem Collect_status (env : Env) (c : nodesInClusterCollector) (res : Response)
    (h : res.StatusCode ≠ StatusOK) :
    Collect env c (GetOutcome.ok res)
      = { collector := { c with totalScrapes := c.totalScrapes.Inc, up := c.up.Set 0 }
          ch := bookkeeping { c with totalScrapes := c.totalScrapes.Inc, up := c.up.Set 0 }
          log := closeBody res.Body ++
            [{ msg := "failed to fetch and decode node in cluster status"
               err := GoError.httpStatus res.StatusCode }]
          closeCalls := 1, decodeAttempts := 0, panic := none } := by
  simp [Collect, fetch_status env _ res h]

theorem Collect_decode_err (env : Env) (c : nodesInClusterCollector) (res : Response)
    (chr : clusterNodesResponse) (e : String)
    (h : res.StatusCode = StatusOK) (hd : env.jsonDecode res.Body.data = (chr, some e)) :
    Collect env c (GetOutcome.ok res)
      = { collector := { c with totalScrapes := c.totalScrapes.Inc
                                jsonParseFailures := c.jsonParseFailures.Inc
                                up := c.up.Set 0 }
          ch := bookkeeping { c with totalScrapes := c.totalScrapes.Inc
                                     jsonParseFailures := c.jsonParseFailures.Inc
                                     up := c.up.Set 0 }
          log := closeBody res.Body ++
            [{ msg := "failed to fetch and decode node in cluster status"
               err := GoError.lib e }]
          closeCalls := 1, decodeAttempts := 1, panic := none } := by
  simp [Collect, fetch_decode_err env _ res chr e h hd]

theorem Collect_decode_ok (env : Env) (c : nodesInClusterCollector) (res : Response)
    (chr : clusterNodesResponse)
    (h : res.StatusCode = StatusOK) (hd : env.jsonDecode res.Body.data = (chr, none))
    (hl : c.nodesexists.variableLabels.length = 2)
    (hv : utf8.ValidString c.node = true) :
    Collect env c (GetOutcome.ok res)
      = { collector := { c with totalScrapes := c.totalScrapes.Inc, up := c.up.Set 1 }
          ch := { desc := c.nodesexists, valueType := ValueType.CounterValue
                  value := metricValue c.node (chr.Nodes.map Prod.snd)
                  labelValues := [GoString.ofString chr.ClusterName, c.node] }
            :: bookkeeping { c with totalScrapes := c.totalScrapes.Inc, up := c.up.Set 1 }
          log := closeBody res.Body
          closeCalls := 1, decodeAttempts := 1, panic := none } := by
  simp [Collect, fetch_decode_ok env _ res chr h hd, MustNewConstMetric, hl, hv,
    GoString.ofString_valid]

/-- A decoded cycle on a collector whose token is not valid UTF-8: the label check
of `MustNewConstMetric` fails, the deferred function still sends the bookkeeping
samples, and the call panics. -/
theorem Collect_decode_ok_invalid (env : Env) (c : nodesInClusterCollector) (res : Response)
    (chr : clusterNodesResponse)
    (h : res.StatusCode = StatusOK) (hd : env.jsonDecode res.Body.data = (chr, none))
    (hl : c.nodesexists.variableLabels.length = 2)
    (hv : utf8.ValidString c.node = false) :
    Collect env c (GetOutcome.ok res)
      = { collector := { c with totalScrapes := c.totalScrapes.Inc, up := c.up.Set 1 }
          ch := bookkeeping { c with totalScrapes := c.totalScrapes.Inc, up := c.up.Set 1 }
          log := closeBody res.Body
          closeCalls := 1, decodeAttempts := 1
          panic := some "label value is not valid UTF-8" } := by
  simp [Collect, fetch_decode_ok env _ res chr h hd, MustNewConstMetric, hl, hv]

/-- The collector after one cycle, whatever the outcome (a panic included). -/
theorem Collect_collector (env : Env) (c : nodesInClusterCollector) (g : GetOutcome) :
    (Collect env c g).collector
      = { c with
          totalScrapes := c.totalScrapes.Inc
          jsonParseFailures :=
            if decodeFailure env g = true then c.jsonParseFailures.Inc else c.jsonParseFailures
          up := c.up.Set (if decoded env g = true then 1 else 0) } := by
  rcases outcome_cases env g with ⟨e, rfl⟩ | ⟨res, rfl, h⟩ | ⟨res, chr, e, rfl, h, hd⟩
    | ⟨res, chr, rfl, h, hd⟩
  · rw [Collect_err]; simp [decodeFailure, decoded]
  · rw [Collect_status env c res h]; simp [decodeFailure, decoded, h]
  · rw [Collect_decode_err env c res chr e h hd]; simp [decodeFailure, decoded, h, hd]
  · simp only [Collect, fetch_decode_ok env _ res chr h hd]
    split <;> simp [decodeFailure, decoded, h, hd]

/-- One cycle leaves the configuration and every descriptor of the collector alone. -/
theorem Collect_static (env : Env) (c : nodesInClusterCollector) (g : GetOutcome) :
    (Collect env c g).collector.url = c.url
    ∧ (Collect env c g).collector.node = c.node
    ∧ (Collect env c g).collector.nodesexists = c.nodesexists
    ∧ (Collect env c g).collector.up.desc = c.up.desc
    ∧ (Collect env c g).collector.totalScrapes.desc = c.totalScrapes.desc
    ∧ (Collect env c g).collector.jsonParseFailures.desc = c.jsonParseFailures.desc := by
  rw [Collect_collector]
  refine ⟨rfl, rfl, rfl, rfl, rfl, ?_⟩
  by_cases h : decodeFailure env g = true
  · simp [h, Counter.Inc]
  · simp [h]

theorem collectAll_static (env : Env) :
    ∀ (gs : List GetOutcome) (c c' : nodesInClusterCollector),
      collectAll env c gs = some c' →
        c'.url = c.url ∧ c'.node = c.node ∧ c'.nodesexists = c.nodesexists
        ∧ c'.up.desc = c.up.desc ∧ c'.totalScrapes.desc = c.totalScrapes.desc
        ∧ c'.jsonParseFailures.desc = c.jsonParseFailures.desc := by
  intro gs
  induction gs with
  | nil =>
    intro c c' h
    simp only [collectAll, Option.some.injEq] at h
    subst h
    exact ⟨rfl, rfl, rfl, rfl, rfl, rfl⟩
  | cons g gs ih =>
    intro c c' h
    unfold collectAll at h
    split at h
    · obtain ⟨h1, h2, h3, h4, h5, h6⟩ := ih _ _ h
      obtain ⟨k1, k2, k3, k4, k5, k6⟩ := Collect_static env c g
      exact ⟨h1.trans k1, h2.trans k2, h3.trans k3, h4.trans k4, h5.trans k5, h6.trans k6⟩
    · exact absurd h (by simp)

/-- A cycle on a collector whose membership descriptor has two labels and whose token
is valid UTF-8 does not panic. -/
theorem Collect_no_panic (env : Env) (c : nodesInClusterCollector) (g : GetOutcome)
    (hl : c.nodesexists.variableLabels.length = 2)
    (hv : utf8.ValidString c.node = true) :
    (Collect env c g).panic = none := by
  rcases outcome_cases env g with ⟨e, rfl⟩ | ⟨res, rfl, h⟩ | ⟨res, chr, e, rfl, h, hd⟩
    | ⟨res, chr, rfl, h, hd⟩
  · rw [Collect_err]
  · rw [Collect_status env c res h]
  · rw [Collect_decode_err env c res chr e h hd]
  · rw [Collect_decode_ok env c res chr h hd hl hv]

/-- The bookkeeping samples of a collector whose gauge and counters have unlabelled
descriptors do not carry a descriptor with two labels. -/
theorem bookkeeping_not_membership (c : nodesInClusterCollector) (d : Desc)
    (hd : d.variableLabels.length = 2)
    (hup : c.up.desc.variableLabels = [])
    (htot : c.totalScrapes.desc.variableLabels = [])
    (hjson : c.jsonParseFailures.desc.variableLabels = []) :
    ∀ b ∈ bookkeeping c, b.desc ≠ d := by
  intro b hb hcontra
  have hv : b.desc.variableLabels.length = 2 := by rw [hcontra]; exact hd
  simp only [bookkeeping, List.mem_cons, List.mem_singleton, List.not_mem_nil,
    or_false] at hb
  rcases hb with rfl | rfl | rfl
  · rw [show c.up.toMetric.desc = c.up.desc from rfl, hup] at hv
    exact absurd hv (by decide)
  · rw [show c.totalScrapes.toMetric.desc = c.totalScrapes.desc from rfl, htot] at hv
    exact absurd hv (by decide)
  · rw [show c.jsonParseFailures.toMetric.desc = c.jsonParseFailures.desc from rfl, hjson] at hv
    exact absurd hv (by decide)

theorem NewNodeInCluster_labels (ns : String) (url : URL) (node : GoString) :
    (NewNodeInCluster ns url node).nodesexists.variableLabels = ["cluster", "name"] := rfl

/-- A sequence of cycles on a collector with a two-label membership descriptor and a
token that is valid UTF-8 never panics. -/
theorem collectAll_total (env : Env) :
    ∀ (gs : List GetOutcome) (c : nodesInClusterCollector),
      c.nodesexists.variableLabels.length = 2 → utf8.ValidString c.node = true →
      ∃ c', collectAll env c gs = some c' := by
  intro gs
  induction gs with
  | nil => intro c _ _; exact ⟨c, rfl⟩
  | cons g gs ih =>
    intro c hl hv
    have hp := Collect_no_panic env c g hl hv
    have hs := (Collect_static env c g).2.2.1
    have hn := (Collect_static env c g).2.1
    obtain ⟨c', hc'⟩ := ih (Collect env c g).collector (by rw [hs]; exact hl)
      (by rw [hn]; exact hv)
    refine ⟨c', ?_⟩
    unfold collectAll
    rw [hp]
    exact hc'

theorem collectAll_cons (env : Env) (c : nodesInClusterCollector) (g : GetOutcome)
    (gs : List GetOutcome) (hl : c.nodesexists.variableLabels.length = 2)
    (hv : utf8.ValidString c.node = true) :
    collectAll env c (g :: gs) = collectAll env (Collect env c g).collector gs := by
  have hp := Collect_no_panic env c g hl hv
  rw [collectAll, hp]

end collector

/-! ## The claims -/

namespace collector

open prometheus

/-- C1: on a collector built by `NewNodeInCluster` with a token that is text (after
any history of cycles), a cycle whose response passes the status check and decodes
to `chr` emits a membership
sample as the first sample, followed by the bookkeeping samples; its value is 1
exactly when some node record of `chr` has a name containing the target token as a
contiguous substring, and 0 exactly when none has. -/
theorem C1_membership_value (env : Env) (ns : String) (url : URL) (node : String)
    (history : List GetOutcome) (c : nodesInClusterCollector) (res : Response)
    (chr : clusterNodesResponse)
    (hc : collectAll env (NewNodeInCluster ns url (GoString.ofString node)) history = some c)
    (hs : res.StatusCode = StatusOK)
    (hd : env.jsonDecode res.Body.data = (chr, none)) :
    ∃ m, (Collect env c (GetOutcome.ok res)).ch
          = m :: bookkeeping (Collect env c (GetOutcome.ok res)).collector
      ∧ m.desc = c.nodesexists
      ∧ (m.value = 1 ↔ ∃ kv ∈ chr.Nodes, node.data <:+: kv.2.Name.data)
      ∧ (m.value = 0 ↔ ¬ ∃ kv ∈ chr.Nodes, node.data <:+: kv.2.Name.data) := by
  obtain ⟨_, hnode, hdesc, _, _, _⟩ := collectAll_static env history _ c hc
  have hl : c.nodesexists.variableLabels.length = 2 := by rw [hdesc]; rfl
  replace hnode : c.node = GoString.ofString node := hnode
  have hv : utf8.ValidString c.node = true := by rw [hnode]; exact GoString.ofString_valid node
  have hmem : (∃ n ∈ chr.Nodes.map Prod.snd, node.data <:+: n.Name.data)
      ↔ ∃ kv ∈ chr.Nodes, node.data <:+: kv.2.Name.data := by
    constructor
    · rintro ⟨n, hn, hi⟩
      obtain ⟨kv, hkv, rfl⟩ := List.mem_map.mp hn
      exact ⟨kv, hkv, hi⟩
    · rintro ⟨kv, hkv, hi⟩
      exact ⟨kv.2, List.mem_map.mpr ⟨kv, hkv, rfl⟩, hi⟩
  rw [Collect_decode_ok env c res chr hs hd hl hv]
  refine ⟨_, rfl, rfl, ?_, ?_⟩
  · show metricValue c.node _ = 1 ↔ _
    rw [hnode, metricValue_one_iff, hmem]
  · show metricValue c.node _ = 0 ↔ _
    rw [hnode, metricValue_zero_iff, hmem]

/-- C1, example: token `node-3`, nodes `node-1` and `node-3-replica`; the theorem
applies and the emitted value is 1. -/
theorem C1_membership_value_witness :
    collectAll exampleEnv (NewNodeInCluster "elasticsearch" exampleURL (GoString.ofString "node-3")) []
        = some (NewNodeInCluster "elasticsearch" exampleURL (GoString.ofString "node-3"))
    ∧ (respond 200 bodyReplica).StatusCode = StatusOK
    ∧ exampleEnv.jsonDecode (respond 200 bodyReplica).Body.data = (chrReplica, none)
    ∧ (∃ m, (Collect exampleEnv (NewNodeInCluster "elasticsearch" exampleURL (GoString.ofString "node-3"))
              (GetOutcome.ok (respond 200 bodyReplica))).ch
            = m :: bookkeeping (Collect exampleEnv
                (NewNodeInCluster "elasticsearch" exampleURL (GoString.ofString "node-3"))
                (GetOutcome.ok (respond 200 bodyReplica))).collector
        ∧ m.desc = (NewNodeInCluster "elasticsearch" exampleURL (GoString.ofString "node-3")).nodesexists
        ∧ (m.value = 1 ↔ ∃ kv ∈ chrReplica.Nodes, "node-3".data <:+: kv.2.Name.data)
        ∧ (m.value = 0 ↔ ¬ ∃ kv ∈ chrReplica.Nodes, "node-3".data <:+: kv.2.Name.data)) :=
  ⟨rfl, rfl, by decide,
    C1_membership_value exampleEnv "elasticsearch" exampleURL "node-3" []
      (NewNodeInCluster "elasticsearch" exampleURL (GoString.ofString "node-3")) (respond 200 bodyReplica)
      chrReplica rfl rfl (by decide)⟩

/-- The membership property for an arbitrary byte string as token, valid UTF-8 or
not: whenever a decoded cycle sends a sample that carries the membership descriptor,
its value is 1 exactly when the bytes of the token occur contiguously in the bytes of
some node name, and 0 exactly when they occur in none. -/
theorem membership_value_any_token (env : Env) (ns : String) (url : URL) (node : GoString)
    (history : List GetOutcome) (c : nodesInClusterCollector) (res : Response)
    (chr : clusterNodesResponse)
    (hc : collectAll env (NewNodeInCluster ns url node) history = some c)
    (hs : res.StatusCode = StatusOK)
    (hd : env.jsonDecode res.Body.data = (chr, none)) :
    ∀ m ∈ (Collect env c (GetOutcome.ok res)).ch, m.desc = c.nodesexists →
      (m.value = 1 ↔ ∃ kv ∈ chr.Nodes, node <:+: GoString.ofString kv.2.Name)
      ∧ (m.value = 0 ↔ ¬ ∃ kv ∈ chr.Nodes, node <:+: GoString.ofString kv.2.Name) := by
  obtain ⟨_, hnode, hdesc, hup, htot, hjson⟩ := collectAll_static env history _ c hc
  replace hnode : c.node = node := hnode
  have hl : c.nodesexists.variableLabels.length = 2 := by rw [hdesc]; rfl
  have hbook : ∀ b ∈ bookkeeping { c with totalScrapes := c.totalScrapes.Inc, up := c.up.Set 1 },
      b.desc ≠ c.nodesexists :=
    bookkeeping_not_membership _ c.nodesexists hl
      (by show c.up.desc.variableLabels = []; rw [hup]; rfl)
      (by show c.totalScrapes.desc.variableLabels = []; rw [htot]; rfl)
      (by show c.jsonParseFailures.desc.variableLabels = []; rw [hjson]; rfl)
  have hmem : (∃ n ∈ chr.Nodes.map Prod.snd, node <:+: GoString.ofString n.Name)
      ↔ ∃ kv ∈ chr.Nodes, node <:+: GoString.ofString kv.2.Name := by
    constructor
    · rintro ⟨n, hn, hi⟩
      obtain ⟨kv, hkv, rfl⟩ := List.mem_map.mp hn
      exact ⟨kv, hkv, hi⟩
    · rintro ⟨kv, hkv, hi⟩
      exact ⟨kv.2, List.mem_map.mpr ⟨kv, hkv, rfl⟩, hi⟩
  intro m hm hmd
  by_cases hv : utf8.ValidString c.node = true
  · rw [Collect_decode_ok env c res chr hs hd hl hv] at hm
    rcases List.mem_cons.mp hm with rfl | hm'
    · constructor
      · show metricValue c.node _ = 1 ↔ _
        rw [hnode, metricValue_bytes_one_iff, hmem]
      · show metricValue c.node _ = 0 ↔ _
        rw [hnode, metricValue_bytes_zero_iff, hmem]
    · exact absurd hmd (hbook m hm')
  · rw [Collect_decode_ok_invalid env c res chr hs hd hl (by simpa using hv)] at hm
    exact absurd hmd (hbook m hm)

/-- The three examples of the membership property, evaluated: `node-3` among
`node-1`, `node-3-replica` gives 1; `node-3` among `node-1`, `node-2` gives 0; an
empty node map gives 0. -/
theorem membership_examples :
    ((Collect exampleEnv (NewNodeInCluster "elasticsearch" exampleURL (GoString.ofString "node-3"))
        (GetOutcome.ok (respond 200 bodyReplica))).ch.head?.map (fun m => m.value) = some 1)
    ∧ ((Collect exampleEnv (NewNodeInCluster "elasticsearch" exampleURL (GoString.ofString "node-3"))
        (GetOutcome.ok (respond 200 bodyTwo))).ch.head?.map (fun m => m.value) = some 0)
    ∧ ((Collect exampleEnv (NewNodeInCluster "elasticsearch" exampleURL (GoString.ofString "node-3"))
        (GetOutcome.ok (respond 200 bodyEmpty))).ch.head?.map (fun m => m.value) = some 0)
    ∧ ((Collect exampleEnv (NewNodeInCluster "elasticsearch" exampleURL (GoString.ofString "node-3"))
        (GetOutcome.ok (respond 200 bodyEmpty))).panic = none) := by
  decide

/-- C2: after one `Collect` the availability gauge reads 1 exactly when a response
was obtained, its status passed the status check and its body decoded without
error; it reads 0 exactly after a transport failure, a status failure or a decode
failure. The value before the cycle plays no part. -/
theorem C2_availability (env : Env) (c : nodesInClusterCollector) (g : GetOutcome) :
    ((Collect env c g).collector.up.value = 1
        ↔ ∃ res, g = GetOutcome.ok res ∧ res.StatusCode = StatusOK
            ∧ (env.jsonDecode res.Body.data).2 = none)
    ∧ ((Collect env c g).collector.up.value = 0
        ↔ (∃ e, g = GetOutcome.err e)
          ∨ (∃ res, g = GetOutcome.ok res ∧ res.StatusCode ≠ StatusOK)
          ∨ (∃ res e, g = GetOutcome.ok res ∧ res.StatusCode = StatusOK
              ∧ (env.jsonDecode res.Body.data).2 = some e)) := by
  rw [Collect_collector]
  rcases outcome_cases env g with ⟨e, rfl⟩ | ⟨res, rfl, h⟩ | ⟨res, chr, e, rfl, h, hd⟩
    | ⟨res, chr, rfl, h, hd⟩
  · simp [decoded, Gauge.Set]
  · simp [decoded, Gauge.Set, h]
  · simp [decoded, Gauge.Set, h, hd]
  · simp [decoded, Gauge.Set, h, hd]

/-- C3: every `Collect` adds exactly one to the total-scrapes counter, the fetch
leaves it alone, and N invocations on a fresh collector, whatever their outcomes,
all return and leave the counter at N. -/
theorem C3_total_scrapes (env : Env) (ns : String) (url : URL) (node : String)
    (gets : List GetOutcome) :
    (∀ c g, (Collect env c g).collector.totalScrapes.value = c.totalScrapes.value + 1)
    ∧ (∀ c g, (fetchAndDecodeClusterNodes env c g).collector.totalScrapes = c.totalScrapes)
    ∧ (NewNodeInCluster ns url (GoString.ofString node)).totalScrapes.value = 0
    ∧ ∃ c', collectAll env (NewNodeInCluster ns url (GoString.ofString node)) gets = some c'
        ∧ c'.totalScrapes.value = gets.length := by
  have step : ∀ c g,
      (Collect env c g).collector.totalScrapes.value = c.totalScrapes.value + 1 := by
    intro c g
    rw [Collect_collector]
    rfl
  refine ⟨step, ?_, rfl, ?_⟩
  · intro c g
    rcases outcome_cases env g with ⟨e, rfl⟩ | ⟨res, rfl, h⟩ | ⟨res, chr, e, rfl, h, hd⟩
      | ⟨res, chr, rfl, h, hd⟩
    · rfl
    · rw [fetch_status env c res h]
    · rw [fetch_decode_err env c res chr e h hd]
    · rw [fetch_decode_ok env c res chr h hd]
  · have key : ∀ (gs : List GetOutcome) (c : nodesInClusterCollector),
        c.nodesexists.variableLabels.length = 2 → utf8.ValidString c.node = true →
        ∃ c', collectAll env c gs = some c'
          ∧ c'.totalScrapes.value = c.totalScrapes.value + gs.length := by
      intro gs
      induction gs with
      | nil => intro c _ _; exact ⟨c, rfl, rfl⟩
      | cons g gs ih =>
        intro c hl hu
        have hs := (Collect_static env c g).2.2.1
        have hn := (Collect_static env c g).2.1
        obtain ⟨c', hc', hv⟩ := ih (Collect env c g).collector (by rw [hs]; exact hl)
          (by rw [hn]; exact hu)
        refine ⟨c', ?_, ?_⟩
        · rw [collectAll_cons env c g gs hl hu]; exact hc'
        · rw [hv, step, List.length_cons]; omega
    obtain ⟨c', hc', hv⟩ := key gets (NewNodeInCluster ns url (GoString.ofString node)) rfl
      (GoString.ofString_valid node)
    refine ⟨c', hc', ?_⟩
    rw [hv]
    show 0 + gets.length = gets.length
    omega

/-- C4: every `Collect` adds one to the JSON-parse-failure counter when a response
passed the status check and its body failed to decode, and adds nothing otherwise
(so nothing after a transport failure or a status failure, and never more than
one); N invocations on a fresh collector leave the counter at the number of
invocations of the first kind. -/
theorem C4_parse_failures (env : Env) (ns : String) (url : URL) (node : String)
    (gets : List GetOutcome) :
    (∀ c g, (Collect env c g).collector.jsonParseFailures.value
        = c.jsonParseFailures.value + (if decodeFailure env g = true then 1 else 0))
    ∧ (∀ c e, (Collect env c (GetOutcome.err e)).collector.jsonParseFailures
        = c.jsonParseFailures)
    ∧ (∀ c res, res.StatusCode ≠ StatusOK →
        (Collect env c (GetOutcome.ok res)).collector.jsonParseFailures = c.jsonParseFailures)
    ∧ (NewNodeInCluster ns url (GoString.ofString node)).jsonParseFailures.value = 0
    ∧ ∃ c', collectAll env (NewNodeInCluster ns url (GoString.ofString node)) gets = some c'
        ∧ c'.jsonParseFailures.value = (gets.filter (decodeFailure env)).length := by
  have step : ∀ c g, (Collect env c g).collector.jsonParseFailures.value
      = c.jsonParseFailures.value + (if decodeFailure env g = true then 1 else 0) := by
    intro c g
    rw [Collect_collector]
    by_cases h : decodeFailure env g = true
    · simp [h, Counter.Inc]
    · simp [h]
  refine ⟨step, ?_, ?_, rfl, ?_⟩
  · intro c e
    rw [Collect_err]
  · intro c res h
    rw [Collect_status env c res h]
  · have key : ∀ (gs : List GetOutcome) (c : nodesInClusterCollector),
        c.nodesexists.variableLabels.length = 2 → utf8.ValidString c.node = true →
        ∃ c', collectAll env c gs = some c'
          ∧ c'.jsonParseFailures.value
              = c.jsonParseFailures.value + (gs.filter (decodeFailure env)).length := by
      intro gs
      induction gs with
      | nil => intro c _ _; exact ⟨c, rfl, rfl⟩
      | cons g gs ih =>
        intro c hl hu
        have hs := (Collect_static env c g).2.2.1
        have hn := (Collect_static env c g).2.1
        obtain ⟨c', hc', hv⟩ := ih (Collect env c g).collector (by rw [hs]; exact hl)
          (by rw [hn]; exact hu)
        refine ⟨c', ?_, ?_⟩
        · rw [collectAll_cons env c g gs hl hu]; exact hc'
        · rw [hv, step]
          by_cases h : decodeFailure env g = true
          · simp [List.filter_cons, h]; omega
          · simp [List.filter_cons, h]
    obtain ⟨c', hc', hv⟩ := key gets (NewNodeInCluster ns url (GoString.ofString node)) rfl
      (GoString.ofString_valid node)
    refine ⟨c', hc', ?_⟩
    rw [hv]
    show 0 + _ = _
    omega

/-- C4, example: a transport failure, a 503, a 200 with an undecodable body and a
200 with a decodable body leave the parse-failure counter at 1. -/
theorem C4_parse_failures_witness :
    (503 : Int) ≠ StatusOK
    ∧ (Collect exampleEnv (NewNodeInCluster "elasticsearch" exampleURL (GoString.ofString "node-2"))
        (GetOutcome.ok (respond 503 bodyEs1))).collector.jsonParseFailures
        = (NewNodeInCluster "elasticsearch" exampleURL (GoString.ofString "node-2")).jsonParseFailures
    ∧ ∃ c', collectAll exampleEnv (NewNodeInCluster "elasticsearch" exampleURL (GoString.ofString "node-2"))
          [GetOutcome.err "connection refused", GetOutcome.ok (respond 503 bodyEs1),
           GetOutcome.ok (respond 200 "not json"), GetOutcome.ok (respond 200 bodyEs1)]
          = some c'
        ∧ c'.jsonParseFailures.value = 1 :=
  ⟨by decide,
    (C4_parse_failures exampleEnv "elasticsearch" exampleURL "node-2" []).2.2.1 _
      (respond 503 bodyEs1) (by decide),
    (C4_parse_failures exampleEnv "elasticsearch" exampleURL "node-2"
      [GetOutcome.err "connection refused", GetOutcome.ok (respond 503 bodyEs1),
       GetOutcome.ok (respond 200 "not json"),
       GetOutcome.ok (respond 200 bodyEs1)]).2.2.2.2⟩

end collector

namespace collector

open prometheus

/-- C5 as stated fails: with the target token `"\xff"` (the single byte 255, not
valid UTF-8) on a fresh collector, a response with status 200 and the `es1` payload
decodes without error, yet `Collect` panics in `MustNewConstMetric`; only the three
bookkeeping samples are sent and none of them carries the membership descriptor. -/
theorem C5_counterexample :
    utf8.ValidString [0xff] = false
    ∧ collectAll exampleEnv (NewNodeInCluster "elasticsearch" exampleURL [0xff]) []
        = some (NewNodeInCluster "elasticsearch" exampleURL [0xff])
    ∧ (respond 200 bodyEs1).StatusCode = StatusOK
    ∧ exampleEnv.jsonDecode (respond 200 bodyEs1).Body.data = (chrEs1, none)
    ∧ (Collect exampleEnv (NewNodeInCluster "elasticsearch" exampleURL [0xff])
        (GetOutcome.ok (respond 200 bodyEs1))).panic = some "label value is not valid UTF-8"
    ∧ (Collect exampleEnv (NewNodeInCluster "elasticsearch" exampleURL [0xff])
        (GetOutcome.ok (respond 200 bodyEs1))).ch.length = 3
    ∧ ∀ m ∈ (Collect exampleEnv (NewNodeInCluster "elasticsearch" exampleURL [0xff])
        (GetOutcome.ok (respond 200 bodyEs1))).ch,
        m.desc ≠ (NewNodeInCluster "elasticsearch" exampleURL [0xff]).nodesexists := by
  decide

/-- C5, amended: on a collector built by `NewNodeInCluster` (after any history of
cycles), with an arbitrary byte string as target token: after a transport, status
or decode failure `Collect` returns without a panic, sends exactly the three
bookkeeping samples (availability, reading 0, then total scrapes, then parse
failures) and none of them carries the membership descriptor. When the token is
valid UTF-8, `Collect` returns without a panic for every outcome of the fetch, and
after a successful decode it sends one membership sample, with the value computed
by the scan and the label values (decoded cluster name, target token), followed by
the same three bookkeeping samples. -/
theorem C5_emitted_samples (env : Env) (ns : String) (url : URL) (node : GoString)
    (history : List GetOutcome) (c : nodesInClusterCollector) (g : GetOutcome)
    (hc : collectAll env (NewNodeInCluster ns url node) history = some c) :
    (((∃ e, g = GetOutcome.err e)
          ∨ (∃ res, g = GetOutcome.ok res ∧ res.StatusCode ≠ StatusOK)
          ∨ (∃ res e, g = GetOutcome.ok res ∧ res.StatusCode = StatusOK
              ∧ (env.jsonDecode res.Body.data).2 = some e)) →
        (Collect env c g).panic = none
          ∧ (Collect env c g).ch
            = [(Collect env c g).collector.up.toMetric,
               (Collect env c g).collector.totalScrapes.toMetric,
               (Collect env c g).collector.jsonParseFailures.toMetric]
          ∧ (Collect env c g).collector.up.value = 0
          ∧ ∀ m ∈ (Collect env c g).ch, m.desc ≠ c.nodesexists)
    ∧ (utf8.ValidString node = true →
        (Collect env c g).panic = none
        ∧ ∀ res chr, g = GetOutcome.ok res → res.StatusCode = StatusOK →
          env.jsonDecode res.Body.data = (chr, none) →
          ∃ m, (Collect env c g).ch
                = [m, (Collect env c g).collector.up.toMetric,
                   (Collect env c g).collector.totalScrapes.toMetric,
                   (Collect env c g).collector.jsonParseFailures.toMetric]
            ∧ m.desc = c.nodesexists
            ∧ m.value = metricValue node (chr.Nodes.map Prod.snd)
            ∧ m.labelValues = [GoString.ofString chr.ClusterName, node]
            ∧ (Collect env c g).collector.up.value = 1
            ∧ ∀ b ∈ bookkeeping (Collect env c g).collector, b.desc ≠ c.nodesexists) := by
  obtain ⟨_, hnode, hdesc, hup, htot, hjson⟩ := collectAll_static env history _ c hc
  replace hnode : c.node = node := hnode
  have hl : c.nodesexists.variableLabels.length = 2 := by rw [hdesc]; rfl
  obtain ⟨_, _, _, kup, ktot, kjson⟩ := Collect_static env c g
  have hbook : ∀ b ∈ bookkeeping (Collect env c g).collector, b.desc ≠ c.nodesexists := by
    intro b hb hcontra
    have hv : b.desc.variableLabels.length = 2 := by rw [hcontra]; exact hl
    simp only [bookkeeping, List.mem_cons, List.mem_singleton, List.not_mem_nil,
      or_false] at hb
    rcases hb with rfl | rfl | rfl
    · rw [show (Collect env c g).collector.up.toMetric.desc
          = (Collect env c g).collector.up.desc from rfl, kup, hup] at hv
      exact absurd hv (by simp [NewNodeInCluster, NewGauge, NewCounter, NewDesc])
    · rw [show (Collect env c g).collector.totalScrapes.toMetric.desc
          = (Collect env c g).collector.totalScrapes.desc from rfl, ktot, htot] at hv
      exact absurd hv (by simp [NewNodeInCluster, NewGauge, NewCounter, NewDesc])
    · rw [show (Collect env c g).collector.jsonParseFailures.toMetric.desc
          = (Collect env c g).collector.jsonParseFailures.desc from rfl, kjson, hjson] at hv
      exact absurd hv (by simp [NewNodeInCluster, NewGauge, NewCounter, NewDesc])
  refine ⟨?_, ?_⟩
  · intro hcase
    have hch : (Collect env c g).panic = none
        ∧ (Collect env c g).ch = bookkeeping (Collect env c g).collector
        ∧ (Collect env c g).collector.up.value = 0 := by
      rcases hcase with ⟨e, rfl⟩ | ⟨res, rfl, h⟩ | ⟨res, e, rfl, h, hd⟩
      · rw [Collect_err]; exact ⟨rfl, rfl, rfl⟩
      · rw [Collect_status env c res h]; exact ⟨rfl, rfl, rfl⟩
      · have hd' : env.jsonDecode res.Body.data = ((env.jsonDecode res.Body.data).1, some e) := by
          rw [← hd]
        rw [Collect_decode_err env c res _ e h hd']; exact ⟨rfl, rfl, rfl⟩
    refine ⟨hch.1, hch.2.1, hch.2.2, ?_⟩
    rw [hch.2.1]
    exact hbook
  · intro hvalid
    have hv : utf8.ValidString c.node = true := by rw [hnode]; exact hvalid
    refine ⟨Collect_no_panic env c g hl hv, ?_⟩
    intro res chr hg hs hd
    subst hg
    have hb := hbook
    rw [Collect_decode_ok env c res chr hs hd hl hv] at hb ⊢
    refine ⟨_, rfl, rfl, ?_, ?_, rfl, hb⟩
    · show metricValue c.node _ = _
      rw [hnode]
    · show [GoString.ofString chr.ClusterName, c.node] = _
      rw [hnode]

/-- C5, amended, scenario: HTTP 200 with the `es1` payload and token `node-2`; the
theorem applies and the membership sample has value 1 and labels
`("es1", "node-2")`. -/
theorem C5_emitted_samples_witness :
    collectAll exampleEnv
        (NewNodeInCluster "elasticsearch" exampleURL (GoString.ofString "node-2")) []
        = some (NewNodeInCluster "elasticsearch" exampleURL (GoString.ofString "node-2"))
    ∧ utf8.ValidString (GoString.ofString "node-2") = true
    ∧ (respond 200 bodyEs1).StatusCode = StatusOK
    ∧ exampleEnv.jsonDecode (respond 200 bodyEs1).Body.data = (chrEs1, none)
    ∧ (Collect exampleEnv
        (NewNodeInCluster "elasticsearch" exampleURL (GoString.ofString "node-2"))
        (GetOutcome.ok (respond 200 bodyEs1))).panic = none
    ∧ ∃ m, (Collect exampleEnv
              (NewNodeInCluster "elasticsearch" exampleURL (GoString.ofString "node-2"))
              (GetOutcome.ok (respond 200 bodyEs1))).ch.head? = some m
        ∧ (Collect exampleEnv
              (NewNodeInCluster "elasticsearch" exampleURL (GoString.ofString "node-2"))
              (GetOutcome.ok (respond 200 bodyEs1))).ch.length = 4
        ∧ m.value = 1
        ∧ m.labelValues = [GoString.ofString "es1", GoString.ofString "node-2"] := by
  have h := (C5_emitted_samples exampleEnv "elasticsearch" exampleURL
    (GoString.ofString "node-2") []
    (NewNodeInCluster "elasticsearch" exampleURL (GoString.ofString "node-2"))
    (GetOutcome.ok (respond 200 bodyEs1)) rfl).2 (by decide)
  obtain ⟨m, h1, _, h3, h4, _, _⟩ := h.2 (respond 200 bodyEs1) chrEs1 rfl rfl (by decide)
  refine ⟨rfl, by decide, rfl, by decide, h.1, m, ?_, ?_, h3.trans (by decide), h4⟩
  · rw [h1]; rfl
  · rw [h1]; rfl

/-- C6 as stated fails: a response with status 203 lies in 200..299 and carries a
body the decoder accepts, yet the fetch returns the status error without a decode
attempt and the cycle ends with the availability gauge at 0. -/
theorem C6_counterexample :
    (200 ≤ (respond 203 bodyEs1).StatusCode ∧ (respond 203 bodyEs1).StatusCode ≤ 299)
    ∧ exampleEnv.jsonDecode (respond 203 bodyEs1).Body.data = (chrEs1, none)
    ∧ (fetchAndDecodeClusterNodes exampleEnv
        (NewNodeInCluster "elasticsearch" exampleURL (GoString.ofString "node-2"))
        (GetOutcome.ok (respond 203 bodyEs1))).err = some (GoError.httpStatus 203)
    ∧ (fetchAndDecodeClusterNodes exampleEnv
        (NewNodeInCluster "elasticsearch" exampleURL (GoString.ofString "node-2"))
        (GetOutcome.ok (respond 203 bodyEs1))).decodeAttempts = 0
    ∧ (Collect exampleEnv (NewNodeInCluster "elasticsearch" exampleURL (GoString.ofString "node-2"))
        (GetOutcome.ok (respond 203 bodyEs1))).collector.up.value = 0 := by
  decide

/-- C6, amended: for every response obtained without a transport error, the fetch
takes the status-failure path (returns the status error, no decode attempt) exactly
when the status code differs from 200; a response with status 200 proceeds to one
decode attempt and, when its body decodes, the fetch returns the decoded value
without error and the cycle ends with the availability gauge at 1. -/
theorem C6_status_check (env : Env) (c : nodesInClusterCollector) (res : Response) :
    (((fetchAndDecodeClusterNodes env c (GetOutcome.ok res)).err
          = some (GoError.httpStatus res.StatusCode)
        ∧ (fetchAndDecodeClusterNodes env c (GetOutcome.ok res)).decodeAttempts = 0)
      ↔ res.StatusCode ≠ 200)
    ∧ (res.StatusCode = 200 →
        (fetchAndDecodeClusterNodes env c (GetOutcome.ok res)).decodeAttempts = 1
        ∧ ((env.jsonDecode res.Body.data).2 = none →
            (fetchAndDecodeClusterNodes env c (GetOutcome.ok res)).err = none
            ∧ (fetchAndDecodeClusterNodes env c (GetOutcome.ok res)).chr
                = (env.jsonDecode res.Body.data).1
            ∧ (Collect env c (GetOutcome.ok res)).collector.up.value = 1)) := by
  rcases outcome_cases env (GetOutcome.ok res) with ⟨e, he⟩ | ⟨r, hr, h⟩
    | ⟨r, chr, e, hr, h, hd⟩ | ⟨r, chr, hr, h, hd⟩
  · exact absurd he (by simp)
  · cases hr
    have h200 : res.StatusCode ≠ 200 := h
    rw [fetch_status env c res h]
    exact ⟨⟨fun _ => h200, fun _ => ⟨rfl, rfl⟩⟩, fun h' => absurd h' h200⟩
  · cases hr
    have h200 : res.StatusCode = 200 := h
    rw [fetch_decode_err env c res chr e h hd]
    refine ⟨⟨fun hh => absurd hh.2 (by simp), fun hh => absurd h200 hh⟩, fun _ => ⟨rfl, ?_⟩⟩
    intro hnone
    rw [hd] at hnone
    exact absurd hnone (by simp)
  · cases hr
    have h200 : res.StatusCode = 200 := h
    rw [fetch_decode_ok env c res chr h hd]
    refine ⟨⟨fun hh => absurd hh.2 (by simp), fun hh => absurd h200 hh⟩, fun _ => ⟨rfl, ?_⟩⟩
    intro _
    refine ⟨rfl, by rw [hd], ?_⟩
    rw [Collect_collector]
    simp [decoded, h, hd, Gauge.Set]

/-- C6, amended, example: status 200 with the `es1` payload. -/
theorem C6_status_check_witness :
    (respond 200 bodyEs1).StatusCode = 200
    ∧ (exampleEnv.jsonDecode (respond 200 bodyEs1).Body.data).2 = none
    ∧ (fetchAndDecodeClusterNodes exampleEnv
        (NewNodeInCluster "elasticsearch" exampleURL (GoString.ofString "node-2"))
        (GetOutcome.ok (respond 200 bodyEs1))).decodeAttempts = 1
    ∧ (fetchAndDecodeClusterNodes exampleEnv
        (NewNodeInCluster "elasticsearch" exampleURL (GoString.ofString "node-2"))
        (GetOutcome.ok (respond 200 bodyEs1))).err = none
    ∧ (Collect exampleEnv (NewNodeInCluster "elasticsearch" exampleURL (GoString.ofString "node-2"))
        (GetOutcome.ok (respond 200 bodyEs1))).collector.up.value = 1 :=
  ⟨rfl, by decide,
    ((C6_status_check exampleEnv (NewNodeInCluster "elasticsearch" exampleURL (GoString.ofString "node-2"))
      (respond 200 bodyEs1)).2 rfl).1,
    (((C6_status_check exampleEnv (NewNodeInCluster "elasticsearch" exampleURL (GoString.ofString "node-2"))
      (respond 200 bodyEs1)).2 rfl).2 (by decide)).1,
    (((C6_status_check exampleEnv (NewNodeInCluster "elasticsearch" exampleURL (GoString.ofString "node-2"))
      (respond 200 bodyEs1)).2 rfl).2 (by decide)).2.2⟩

end collector

namespace collector

open prometheus

/-- C7 as stated fails: the second variable label of the membership descriptor is
`name`, so the label schema is not `["cluster", "node"]`. -/
theorem C7_counterexample :
    (NewNodeInCluster "elasticsearch" exampleURL (GoString.ofString "node-2")).nodesexists.variableLabels
      ≠ ["cluster", "node"] := by
  decide

/-- C7, amended: for every non-empty namespace constant, base URL and target token,
the membership descriptor built by `NewNodeInCluster` has the fully qualified name
`<namespace>_node_in_cluster_nodesexists` and the variable-label schema exactly
`["cluster", "name"]`, in that order. -/
theorem C7_membership_descriptor (ns : String) (url : URL) (node : GoString)
    (hns : ns ≠ "") :
    (NewNodeInCluster ns url node).nodesexists.fqName = ns ++ "_node_in_cluster_nodesexists"
    ∧ (NewNodeInCluster ns url node).nodesexists.variableLabels = ["cluster", "name"] := by
  refine ⟨?_, rfl⟩
  have h1 : ("nodesexists" : String) ≠ "" := by decide
  have h2 : ("node_in_cluster" : String) ≠ "" := by decide
  have h3 : ("_node_in_cluster_nodesexists" : String)
      = "_" ++ ("node_in_cluster" ++ ("_" ++ "nodesexists")) := by decide
  show BuildFQName ns "node_in_cluster" "nodesexists" = _
  unfold BuildFQName
  rw [if_neg h1, if_pos ⟨hns, h2⟩, h3]
  simp only [strings.Join, String.intercalate, String.intercalate.go, String.append_assoc]

/-- C7, amended, example: the namespace `elasticsearch`. -/
theorem C7_membership_descriptor_witness :
    ("elasticsearch" : String) ≠ ""
    ∧ (NewNodeInCluster "elasticsearch" exampleURL (GoString.ofString "node-2")).nodesexists.fqName
        = "elasticsearch" ++ "_node_in_cluster_nodesexists"
    ∧ (NewNodeInCluster "elasticsearch" exampleURL (GoString.ofString "node-2")).nodesexists.variableLabels
        = ["cluster", "name"] :=
  ⟨by decide, C7_membership_descriptor "elasticsearch" exampleURL (GoString.ofString "node-2") (by decide)⟩

/-- C8, the code at the failing input: two successive successful cycles on a fresh
collector with token `node-2`, the first with the node present and the second with
an empty node map. Both membership samples are built with the counter value type,
and the value of this counter-typed sample drops from 1 to 0. -/
theorem C8_membership_sample_counter_typed :
    (Collect exampleEnv (NewNodeInCluster "elasticsearch" exampleURL (GoString.ofString "node-2"))
        (GetOutcome.ok (respond 200 bodyEs1))).ch.head?
      = some { desc := (NewNodeInCluster "elasticsearch" exampleURL (GoString.ofString "node-2")).nodesexists
               valueType := ValueType.CounterValue
               value := 1
               labelValues := [GoString.ofString "es1", GoString.ofString "node-2"] }
    ∧ (Collect exampleEnv
        (Collect exampleEnv (NewNodeInCluster "elasticsearch" exampleURL (GoString.ofString "node-2"))
          (GetOutcome.ok (respond 200 bodyEs1))).collector
        (GetOutcome.ok (respond 200 bodyEmpty))).ch.head?
      = some { desc := (NewNodeInCluster "elasticsearch" exampleURL (GoString.ofString "node-2")).nodesexists
               valueType := ValueType.CounterValue
               value := 0
               labelValues := [GoString.ofString "es1", GoString.ofString "node-2"] }
    ∧ ValueType.CounterValue ≠ ValueType.GaugeValue := by
  decide

/-- C9: for every response obtained without a transport error, whatever its status
and body, the body is closed exactly once, and a failing close changes nothing but
the log: the returned pair, the collector, the samples sent and the panic status of
the cycle are those of the same cycle with a succeeding close, and the log is the
same log with one warning in front. -/
theorem C9_close_failure_is_harmless (env : Env) (c : nodesInClusterCollector)
    (status : Int) (data : String) (e : String) :
    (fetchAndDecodeClusterNodes env c
        (GetOutcome.ok { StatusCode := status, Body := { data := data, closeErr := none } })).closeCalls = 1
    ∧ (fetchAndDecodeClusterNodes env c
        (GetOutcome.ok { StatusCode := status, Body := { data := data, closeErr := some e } })).closeCalls = 1
    ∧ (fetchAndDecodeClusterNodes env c
        (GetOutcome.ok { StatusCode := status, Body := { data := data, closeErr := some e } })).chr
      = (fetchAndDecodeClusterNodes env c
        (GetOutcome.ok { StatusCode := status, Body := { data := data, closeErr := none } })).chr
    ∧ (fetchAndDecodeClusterNodes env c
        (GetOutcome.ok { StatusCode := status, Body := { data := data, closeErr := some e } })).err
      = (fetchAndDecodeClusterNodes env c
        (GetOutcome.ok { StatusCode := status, Body := { data := data, closeErr := none } })).err
    ∧ (Collect env c
        (GetOutcome.ok { StatusCode := status, Body := { data := data, closeErr := some e } })).collector
      = (Collect env c
        (GetOutcome.ok { StatusCode := status, Body := { data := data, closeErr := none } })).collector
    ∧ (Collect env c
        (GetOutcome.ok { StatusCode := status, Body := { data := data, closeErr := some e } })).ch
      = (Collect env c
        (GetOutcome.ok { StatusCode := status, Body := { data := data, closeErr := none } })).ch
    ∧ (Collect env c
        (GetOutcome.ok { StatusCode := status, Body := { data := data, closeErr := some e } })).panic
      = (Collect env c
        (GetOutcome.ok { StatusCode := status, Body := { data := data, closeErr := none } })).panic
    ∧ (Collect env c
        (GetOutcome.ok { StatusCode := status, Body := { data := data, closeErr := some e } })).closeCalls = 1
    ∧ (Collect env c
        (GetOutcome.ok { StatusCode := status, Body := { data := data, closeErr := none } })).closeCalls = 1
    ∧ (Collect env c
        (GetOutcome.ok { StatusCode := status, Body := { data := data, closeErr := some e } })).log
      = { msg := "failed to close http.Client", err := GoError.lib e }
        :: (Collect env c
        (GetOutcome.ok { StatusCode := status, Body := { data := data, closeErr := none } })).log := by
  by_cases h : status = StatusOK
  · rcases hd : env.jsonDecode data with ⟨chr, _ | de⟩
    · simp [Collect, fetchAndDecodeClusterNodes, h, hd, closeBody]
      split <;> simp
    · simp [Collect, fetchAndDecodeClusterNodes, h, hd, closeBody]
  · simp [Collect, fetchAndDecodeClusterNodes, h, closeBody]

/-- C10: for every list of node records and every token, the full scan of `Collect`
computes the value of the scan that stops at the first match, and computes the same
value on every permutation of the records. -/
theorem C10_scan_order_irrelevant (node : GoString) (nodes : List ClusterNodesResponseNode) :
    metricValue node nodes = metricValueShortCircuit node nodes
    ∧ ∀ nodes', nodes.Perm nodes' → metricValue node nodes' = metricValue node nodes := by
  refine ⟨?_, ?_⟩
  · rw [metricValue_eq_any, metricValueShortCircuit_eq_any]
  · intro nodes' hp
    rw [metricValue_eq_any, metricValue_eq_any, any_perm node hp]

/-- C10, example: three records, one match in the middle, and the reversed order. -/
theorem C10_scan_order_irrelevant_witness :
    [namedNode "node-1", namedNode "node-3-replica", namedNode "node-2"].Perm
        [namedNode "node-2", namedNode "node-3-replica", namedNode "node-1"]
    ∧ metricValue (GoString.ofString "node-3")
        [namedNode "node-2", namedNode "node-3-replica", namedNode "node-1"]
      = metricValue (GoString.ofString "node-3")
        [namedNode "node-1", namedNode "node-3-replica", namedNode "node-2"]
    ∧ metricValue (GoString.ofString "node-3")
        [namedNode "node-1", namedNode "node-3-replica", namedNode "node-2"]
      = metricValueShortCircuit (GoString.ofString "node-3")
        [namedNode "node-1", namedNode "node-3-replica", namedNode "node-2"] :=
  ⟨by decide,
    (C10_scan_order_irrelevant (GoString.ofString "node-3")
      [namedNode "node-1", namedNode "node-3-replica", namedNode "node-2"]).2 _ (by decide),
    (C10_scan_order_irrelevant (GoString.ofString "node-3")
      [namedNode "node-1", namedNode "node-3-replica", namedNode "node-2"]).1⟩

end collector
